import Mathlib

/-!
Verification of the daily email-summary pipeline of the news repository.

The development shallowly embeds the service layer of the repository:

* `src/models/email.js`, `src/models/summary.js` — the `Email` and `Digest`
  record types (Mongo ObjectIds are modelled as naturals, `Date` values as
  milliseconds since the epoch).
* `src/services/summaryService.js` — `prepareEmailsForSummary`,
  `processBatches` (split into the partition step `chunks` and the per-batch
  loop `summarizeBatches`), `generateCombinedSummary`, `createDailySummary`
  and `distributeSummary`.
* `src/services/emailService.js` — `getEmailsForSummary` and
  `markEmailsAsSummarized` over an explicit store state.
* `src/services/notificationService.js` — `sendEmail` (the Resend-backed
  variant with the development fallback).

External collaborators (the text-generation backend, the mail provider, the
concurrently running peers of the orchestrator and the process environment)
are modelled as explicit environment records; each generation-backend call is
numbered in program order so that how many backend calls a run makes is part
of the result.  Stateful collaborator calls return `Except`, mirroring
resolved/rejected promises; a caught-and-rethrown error in the source is an
`Except.error` result value here.
-/

set_option linter.unusedVariables false

namespace News

/-- Email record (src/models/email.js).  Only the fields read by the summary
pipeline are carried.  The source field `from` is embedded as `sender`
(`from` is a Lean keyword); `_id` is embedded as `id : Nat`. -/
structure Email where
  id : Nat
  messageId : String
  subject : String
  sender : String
  receivedAt : Nat
  body : String
  snippet : String
  isSummarized : Bool
deriving DecidableEq

/-- One topic category of a digest (summary.js `topicCategories` entries). -/
structure Category where
  name : String
  description : String
deriving DecidableEq

/-- Digest record (src/models/summary.js, the `Summary` model).  `date` is the
start-of-day timestamp; the schema declares a unique index on it. -/
structure Digest where
  id : Nat
  date : Nat
  content : String
  topicCategories : List Category
  emailCount : Nat
  emailIds : List Nat
  isDistributed : Bool := false
  distributedAt : Option Nat := none
  distributionRecipients : List String := []
deriving DecidableEq

/-- The record-store state: the stored messages and the stored digests, in
natural (insertion) order. -/
structure Store where
  emails : List Email
  summaries : List Digest
deriving DecidableEq

/-- Output record of `prepareEmailsForSummary` (summaryService.js lines 8-17). -/
structure PreparedEmail where
  id : Nat
  subject : String
  sender : String
  receivedAt : Nat
  content : String
  snippet : String
deriving DecidableEq

/-- summaryService.js lines 8-17: project each email onto the fields used for
summarization (`content` is the plain-text `body`). -/
def prepareEmailsForSummary (emails : List Email) : List PreparedEmail :=
  emails.map (fun email =>
    { id := email.id, subject := email.subject, sender := email.sender,
      receivedAt := email.receivedAt, content := email.body, snippet := email.snippet })

/-- emailService.js `getEmailsForSummary`: all stored messages received in the
given inclusive range that are not yet summarized, sorted by `receivedAt`
ascending (the Mongo query filter plus the `sort({receivedAt: 1})`). -/
def getEmailsForSummary (store : Store) (startDate endDate : Nat) : List Email :=
  (store.emails.filter (fun m =>
      decide (startDate ≤ m.receivedAt) && decide (m.receivedAt ≤ endDate) && !m.isSummarized)).mergeSort
    (fun a b => decide (a.receivedAt ≤ b.receivedAt))

/-- emailService.js `markEmailsAsSummarized`: the effect of the
`updateMany({_id: {$in: emailIds}}, {$set: {isSummarized: true}})` call on the
stored messages. -/
def markEmailsAsSummarized (emails : List Email) (emailIds : List Nat) : List Email :=
  emails.map (fun e => if emailIds.contains e.id then { e with isSummarized := true } else e)

/-- One millisecond-granularity calendar day. -/
def dayMillis : Nat := 86400000

/-- summaryService.js lines 94-95: `setHours(0,0,0,0)` — truncate a timestamp
to the start of its day (time-zone handling is abstracted to UTC truncation;
the claims only use that the truncation is a deterministic function of the
input date). -/
def startOfDay (date : Nat) : Nat := date - date % dayMillis

/-- summaryService.js lines 97-98: `setHours(23,59,59,999)` — the last
millisecond of the day. -/
def endOfDay (date : Nat) : Nat := startOfDay date + (dayMillis - 1)

/-- summaryService.js lines 21-24: the partition loop
`for (let i = 0; i < emails.length; i += batchSize) batches.push(emails.slice(i, i + batchSize))`.
For `batchSize = 0` the source loop would not terminate; that case is
unreachable (see `effectiveBatchSize`) and the embedding returns `[]` there.
All theorems about the partition assume a positive batch size. -/
def chunks {α : Type} (l : List α) (batchSize : Nat) : List (List α) :=
  match l with
  | [] => []
  | a :: rest =>
    if hb : batchSize = 0 then []
    else (a :: rest).take batchSize :: chunks ((a :: rest).drop batchSize) batchSize
termination_by l.length
decreasing_by
  simp only [List.length_drop, List.length_cons]
  omega

/-- One processed batch paired with its generated summary text
(summaryService.js lines 36-39). -/
structure BatchSummary where
  emails : List PreparedEmail
  summary : String
deriving DecidableEq

/-- summaryService.js lines 30-32: the concatenated `batchContent` block sent
to the backend for one batch (`receivedAt.toISOString()` is abstracted to
`toString`). -/
def batchContent (batch : List PreparedEmail) : String :=
  String.join (batch.map (fun email =>
    "From: " ++ email.sender ++ "\nSubject: " ++ email.subject ++ "\nDate: " ++
      toString email.receivedAt ++ "\n\n" ++ email.content ++ "\n\n---\n\n"))

/-- A generation-backend oracle: the outcome of the n-th generation call of a
run (counting every `generateSummary` and `categorizeEmails` call in program
order), given the prompt text it was sent.  `Except.error` models a rejected
provider call. -/
def GenOracle : Type := Nat → String → Except Unit String

/-- summaryService.js lines 26-44: the per-batch summarization loop.  Each
batch makes exactly one generation call; a failing call is caught and logged
and that batch is skipped (`// Continue with the next batch`), so it does not
appear in the output.  `k` is the index of the next generation call; the
second component returns the index after the loop. -/
def summarizeBatches (batches : List (List PreparedEmail)) (gen : GenOracle) (k : Nat) :
    List BatchSummary × Nat :=
  match batches with
  | [] => ([], k)
  | batch :: rest =>
    match gen k (batchContent batch) with
    | .ok batchSummary =>
      let tail := summarizeBatches rest gen (k + 1)
      ({ emails := batch, summary := batchSummary } :: tail.1, tail.2)
    | .error _ => summarizeBatches rest gen (k + 1)

/-- summaryService.js lines 20-47 `processBatches`: partition the prepared
messages into batches of `batchSize` and summarize each batch. -/
def processBatches (emails : List PreparedEmail) (batchSize : Nat) (gen : GenOracle) (k : Nat) :
    List BatchSummary × Nat :=
  summarizeBatches (chunks emails batchSize) gen k

/-- JS `str.split(sep)` for a one-character separator, char-level: splitting
the empty text yields one empty piece, a trailing separator yields a trailing
empty piece. -/
def splitCharAux (sep : Char) : List Char → List Char → List (List Char)
  | [], acc => [acc.reverse]
  | c :: cs, acc =>
    if c = sep then acc.reverse :: splitCharAux sep cs []
    else splitCharAux sep cs (c :: acc)

/-- `categorization.split(newline)` of summaryService.js line 64, as a
char-level function of the raw backend text. -/
def splitLines (s : List Char) : List (List Char) := splitCharAux '\n' s []

/-- JS `String.prototype.trim`: drop leading and trailing whitespace.
`Char.isWhitespace` (space, tab, carriage return, line feed) stands in for
the JS whitespace class. -/
def trimChars (l : List Char) : List Char :=
  ((l.dropWhile Char.isWhitespace).reverse.dropWhile Char.isWhitespace).reverse

/-- JS `line.split(colon)[0]`: the portion of the line before the first colon
(the whole line when it has none). -/
def beforeColon (l : List Char) : List Char := l.takeWhile (fun c => c != ':')

/-- summaryService.js lines 64-69: parse the categorization text returned by
the backend.  Split into lines, drop the lines that are blank after trimming,
and map each remaining line to a category whose name is the trimmed part
before the first colon when the line contains one (otherwise the whole
trimmed line) and whose description is the whole trimmed line. -/
def parseCategories (categorization : String) : List Category :=
  ((splitLines categorization.data).filter (fun line => decide (0 < (trimChars line).length))).map
    (fun line =>
      let name :=
        if line.contains ':' then trimChars (beforeColon line) else trimChars line
      { name := String.mk name, description := String.mk (trimChars line) })

/-- summaryService.js lines 53-55: the batch summaries joined by the fixed
separator token. -/
def combinedContent (batchSummaries : List BatchSummary) : String :=
  String.intercalate "\n\n===BATCH SEPARATOR===\n\n"
    (batchSummaries.map (fun batch => batch.summary))

/-- openai.js lines 65-90 `categorizeEmails`: the classification prompt is
built from the subjects only (`email.subject || 'No Subject'`). -/
def categorizePrompt (emails : List PreparedEmail) : String :=
  "Categorize these email subjects into logical topic groups:\n\n" ++
    String.intercalate "\n"
      (emails.map (fun email => if email.subject = "" then "No Subject" else email.subject))

/-- summaryService.js lines 76-78: the consolidated-digest prompt sent to the
merge-step generation call. -/
def mergePrompt (batchSummaries : List BatchSummary) : String :=
  "Please create a consolidated daily email summary from the following batch summaries:\n\n" ++
    combinedContent batchSummaries

/-- Result record of `generateCombinedSummary` (summaryService.js lines 80-83). -/
structure CombinedSummary where
  content : String
  topicCategories : List Category
deriving DecidableEq

/-- summaryService.js lines 50-88 `generateCombinedSummary`.  Call `k` is the
categorization call: its failure is caught by the inner catch and the run
proceeds with an empty category list.  Call `k + 1` is the merge-step
`generateSummary` call: its failure reaches the outer catch, which rethrows,
so it is the only error this function propagates. -/
def generateCombinedSummary (batchSummaries : List BatchSummary)
    (allEmails : List PreparedEmail) (gen : GenOracle) (k : Nat) :
    Except Unit CombinedSummary × Nat :=
  let topicCategories : List Category :=
    match gen k (categorizePrompt allEmails) with
    | .ok categorization => parseCategories categorization
    | .error _ => []
  match gen (k + 1) (mergePrompt batchSummaries) with
  | .ok finalSummaryContent =>
    (.ok { content := finalSummaryContent, topicCategories := topicCategories }, k + 2)
  | .error e => (.error e, k + 2)

/-- The environment of one `createDailySummary` run:
* `gen` — the generation backend (see `GenOracle`);
* `batchSizeConfig` — `process.env.EMAILS_BATCH_SIZE` as parsed by `parseInt`
  (`none` models an unset or non-numeric value);
* `concurrent` — a digest committed by a concurrent run between the
  find-by-date check and the save (the storage-level race the unique date
  index guards against); `none` when no interference occurs;
* `markFails` — whether the `updateMany` behind `markEmailsAsSummarized`
  rejects;
* `newId` — the identifier the store assigns to a newly created digest. -/
structure Env where
  gen : GenOracle
  batchSizeConfig : Option Nat
  concurrent : Option Digest
  markFails : Bool
  newId : Nat

/-- summaryService.js line 120: `parseInt(process.env.EMAILS_BATCH_SIZE) || 50`
(zero is falsy in JS, so an explicit zero also falls back to 50; the effective
batch size is therefore always positive). -/
def effectiveBatchSize (batchSizeConfig : Option Nat) : Nat :=
  match batchSizeConfig with
  | some b => if b = 0 then 50 else b
  | none => 50

/-- The ways a `createDailySummary` run can reject, by rethrow site:
`provider` — the merge-step generation call failed (lines 84-87 rethrow,
lines 143-146 rethrow again); `duplicateDate` — `summary.save()` was rejected
by the unique index on `date` (summary.js lines 38-39); `markFailed` — the
`markEmailsAsSummarized` call rejected (emailService.js lines 202-204
rethrow). -/
inductive RunError where
  | provider
  | duplicateDate
  | markFailed
deriving DecidableEq

/-- The `summary.save()` of summaryService.js line 135 against the unique
index on `date`: the insert is rejected exactly when a stored digest already
has the same date. -/
def saveSummary (summaries : List Digest) (digest : Digest) : Except RunError (List Digest) :=
  if summaries.any (fun s => s.date == digest.date) then .error .duplicateDate
  else .ok (summaries ++ [digest])

/-- summaryService.js lines 91-147 `createDailySummary`.  Returns the result
(`.ok (some digest)`, `.ok none` for the no-emails case — the source returns
null — or a rethrown error), the store after the run, and the number of
generation-backend calls the run made. -/
def createDailySummary (env : Env) (store : Store) (date : Nat) :
    Except RunError (Option Digest) × Store × Nat :=
  match store.summaries.find? (fun s => s.date == startOfDay date) with
  | some existingSummary => (.ok (some existingSummary), store, 0)
  | none =>
    let emails := getEmailsForSummary store (startOfDay date) (endOfDay date)
    if emails.length = 0 then (.ok none, store, 0)
    else
      let preparedEmails := prepareEmailsForSummary emails
      let batchSize := effectiveBatchSize env.batchSizeConfig
      let batchSummaries := processBatches preparedEmails batchSize env.gen 0
      let combined := generateCombinedSummary batchSummaries.1 preparedEmails env.gen batchSummaries.2
      match combined.1 with
      | .error _ => (.error .provider, store, combined.2)
      | .ok combinedSummary =>
        let summary : Digest :=
          { id := env.newId, date := startOfDay date, content := combinedSummary.content,
            topicCategories := combinedSummary.topicCategories,
            emailCount := emails.length, emailIds := emails.map (fun e => e.id) }
        let summariesNow :=
          match env.concurrent with
          | some other => store.summaries ++ [other]
          | none => store.summaries
        match saveSummary summariesNow summary with
        | .error e => (.error e, store, combined.2)
        | .ok savedSummaries =>
          if env.markFails then
            (.error .markFailed, { store with summaries := savedSummaries }, combined.2)
          else
            (.ok (some summary),
             { emails := markEmailsAsSummarized store.emails (emails.map (fun e => e.id)),
               summaries := savedSummaries },
             combined.2)

/-- Result of a successful `sendEmail` call (the Resend response object; the
development fallback marks its substitute response with `mock`). -/
structure SendResult where
  id : String
  mock : Bool
deriving DecidableEq

/-- The environment of distribution:
* `production` — whether `NODE_ENV` equals the production value;
* `provider` — the outcome of the n-th underlying mail-provider send attempt
  (`service.emails.send`); `.ok` carries the provider message id, `.error`
  covers both a rejected call and a Resend response with an `error` field
  (notificationService.js lines 80-91 turn the latter into a throw);
* `recipient` — `process.env.SUMMARY_RECIPIENT_EMAIL`;
* `now` — the current time used for `distributedAt`. -/
structure MailEnv where
  production : Bool
  provider : Nat → Except Unit String
  recipient : Option String
  now : Nat

/-- notificationService.js lines 62-126 `sendEmail` (the Resend variant).
One invocation makes exactly one provider send attempt.  A provider failure
is caught; outside production the catch returns a mock success response
despite the error (lines 114-122), in production it rethrows (line 124).
The second component counts provider invocations.  The source parameter `to`
is embedded as `toAddr` (`to` is a Lean keyword). -/
def sendEmail (env : MailEnv) (k : Nat) (toAddr subject html : String) :
    Except Unit SendResult × Nat :=
  match env.provider k with
  | .ok providerId => (.ok { id := providerId, mock := false }, k + 1)
  | .error _ =>
    if env.production then (.error (), k + 1)
    else (.ok { id := "mock-fallback-id", mock := true }, k + 1)

/-- summaryService.js lines 168-180: the HTML body assembled for the digest
mail (`toDateString` is abstracted to `toString`). -/
def digestEmailBody (summary : Digest) : String :=
  let header := "<h1>Daily Email Summary - " ++ toString summary.date ++ "</h1>" ++
    "<p><strong>Total Emails Processed:</strong> " ++ toString summary.emailCount ++ "</p>"
  let topics :=
    if 0 < summary.topicCategories.length then
      "<h2>Topics Overview</h2><ul>" ++
        String.join (summary.topicCategories.map
          (fun category => "<li>" ++ category.description ++ "</li>")) ++ "</ul>"
    else ""
  header ++ topics ++ "<h2>Summary</h2>" ++ "<div>" ++
    (summary.content.replace "\n" "<br>") ++ "</div>"

/-- The ways `distributeSummary` can reject: the digest id is unknown, the
recipient address is not configured, or the delivery rethrew (production). -/
inductive DistError where
  | notFound
  | noRecipient
  | delivery
deriving DecidableEq

/-- summaryService.js lines 150-202 `distributeSummary`.  `k` is the running
count of mail-provider invocations before the call; the third component is
the count after it, so the difference counts how often this call invoked the
mail-delivery collaborator. -/
def distributeSummary (env : MailEnv) (store : Store) (summaryId : Nat) (k : Nat) :
    Except DistError Digest × Store × Nat :=
  match store.summaries.find? (fun s => s.id == summaryId) with
  | none => (.error .notFound, store, k)
  | some summary =>
    if summary.isDistributed then (.ok summary, store, k)
    else
      match env.recipient with
      | none => (.error .noRecipient, store, k)
      | some recipientEmail =>
        let send := sendEmail env k recipientEmail
          ("Email Summary for " ++ toString summary.date) (digestEmailBody summary)
        match send.1 with
        | .error _ => (.error .delivery, store, send.2)
        | .ok _ =>
          let updated := { summary with
            isDistributed := true, distributedAt := some env.now,
            distributionRecipients := [recipientEmail] }
          (.ok updated,
           { store with summaries :=
               store.summaries.map (fun s => if s.id == summaryId then updated else s) },
           send.2)

/-! ## Properties of the batch partitioner -/

theorem chunks_nil {α : Type} (b : Nat) : chunks ([] : List α) b = [] := by
  simp [chunks]

theorem chunks_cons_eq {α : Type} (a : α) (rest : List α) (b : Nat) (hb : b ≠ 0) :
    chunks (a :: rest) b = (a :: rest).take b :: chunks ((a :: rest).drop b) b := by
  rw [chunks]
  simp [hb]

theorem chunks_eq_nil_iff {α : Type} {l : List α} {b : Nat} (hb : b ≠ 0) :
    chunks l b = [] ↔ l = [] := by
  cases l with
  | nil => simp [chunks_nil]
  | cons a rest => simp [chunks_cons_eq a rest b hb]

theorem chunks_flatten {α : Type} (b : Nat) (hb : b ≠ 0) :
    ∀ l : List α, (chunks l b).flatten = l
  | [] => by simp [chunks_nil]
  | a :: rest => by
    rw [chunks_cons_eq a rest b hb]
    simp only [List.flatten_cons]
    rw [chunks_flatten b hb ((a :: rest).drop b)]
    exact List.take_append_drop b (a :: rest)
termination_by l => l.length
decreasing_by simp only [List.length_drop, List.length_cons]; omega

theorem chunks_length {α : Type} (b : Nat) (hb : b ≠ 0) :
    ∀ l : List α, (chunks l b).length = (l.length + b - 1) / b
  | [] => by
    simp only [chunks_nil, List.length_nil, Nat.zero_add]
    exact (Nat.div_eq_of_lt (by omega)).symm
  | a :: rest => by
    rw [chunks_cons_eq a rest b hb]
    have ih := chunks_length b hb ((a :: rest).drop b)
    have hpos : 0 < b := Nat.pos_of_ne_zero hb
    simp only [List.length_cons, List.length_drop] at ih ⊢
    rw [ih]
    rcases le_or_lt (rest.length + 1) b with hc | hc
    · have h1 : rest.length + 1 - b = 0 := by omega
      have h2 : (0 + b - 1) / b = 0 := Nat.div_eq_of_lt (by omega)
      have h3 : rest.length + 1 + b - 1 = rest.length + b := by omega
      have h4 : rest.length / b = 0 := Nat.div_eq_of_lt (by omega)
      rw [h1, h2, h3, Nat.add_div_right _ hpos, h4]
    · have h1 : rest.length + 1 - b + b - 1 = (rest.length - b) + b := by omega
      have h2 : rest.length + 1 + b - 1 = rest.length + b := by omega
      have h3 : rest.length = (rest.length - b) + b := by omega
      rw [h1, h2, Nat.add_div_right _ hpos, Nat.add_div_right _ hpos]
      conv_rhs => rw [h3, Nat.add_div_right _ hpos]
termination_by l => l.length
decreasing_by simp only [List.length_drop, List.length_cons]; omega

theorem chunks_mem {α : Type} (b : Nat) (hb : b ≠ 0) :
    ∀ l : List α, ∀ c ∈ chunks l b, c ≠ [] ∧ c.length ≤ b
  | [] => by simp [chunks_nil]
  | a :: rest => by
    rw [chunks_cons_eq a rest b hb]
    intro c hc
    rcases List.mem_cons.mp hc with h | h
    · subst h
      refine ⟨?_, ?_⟩
      · cases b with
        | zero => exact absurd rfl hb
        | succ b => simp
      · simp only [List.length_take]
        exact min_le_left _ _
    · exact chunks_mem b hb ((a :: rest).drop b) c h
termination_by l => l.length
decreasing_by simp only [List.length_drop, List.length_cons]; omega

theorem chunks_getD {α : Type} (b : Nat) (hb : b ≠ 0) :
    ∀ l : List α, ∀ i : Nat, i + 1 < (chunks l b).length →
      ((chunks l b).getD i []).length = b
  | [] => by simp [chunks_nil]
  | a :: rest => by
    rw [chunks_cons_eq a rest b hb]
    intro i hi
    match i with
    | 0 =>
      simp only [List.length_cons] at hi
      have hne : chunks ((a :: rest).drop b) b ≠ [] := by
        intro h
        rw [h] at hi
        simp at hi
      have hdrop : (a :: rest).drop b ≠ [] := by
        intro h
        exact hne ((chunks_eq_nil_iff hb).mpr h)
      have hlen : b < rest.length + 1 := by
        by_contra hcon
        apply hdrop
        apply List.eq_nil_of_length_eq_zero
        simp only [List.length_drop, List.length_cons]
        omega
      simp only [List.getD_cons_zero, List.length_take, List.length_cons]
      omega
    | i + 1 =>
      simp only [List.getD_cons_succ]
      apply chunks_getD b hb ((a :: rest).drop b) i
      simpa using hi
termination_by l => l.length
decreasing_by simp only [List.length_drop, List.length_cons]; omega

/-- Claim C2: for every message list of length N and batch size B > 0, the
partition step of `processBatches` yields ceil(N/B) = (N + B - 1) / B
contiguous batches whose in-order concatenation reproduces the input exactly
(so order is preserved and, the partition being a pure function of its
inputs, it is deterministic); no batch is empty (hence zero batches exactly
when N = 0), every batch has length at most B, and every batch other than
the last has length exactly B. -/
theorem processBatches_partitions {α : Type} (l : List α) (b : Nat) (hb : 0 < b) :
    (chunks l b).length = (l.length + b - 1) / b ∧
    (chunks l b).flatten = l ∧
    (∀ c ∈ chunks l b, c ≠ [] ∧ c.length ≤ b) ∧
    (∀ i : Nat, i + 1 < (chunks l b).length → ((chunks l b).getD i []).length = b) :=
  ⟨chunks_length b hb.ne' l, chunks_flatten b hb.ne' l,
   chunks_mem b hb.ne' l, chunks_getD b hb.ne' l⟩

theorem processBatches_partitions_witness :
    (chunks [0, 1, 2, 3, 4] 2).flatten = [0, 1, 2, 3, 4] ∧
    (chunks [0, 1, 2, 3, 4] 2).length = (5 + 2 - 1) / 2 :=
  ⟨(processBatches_partitions [0, 1, 2, 3, 4] 2 (by decide)).2.1,
   (processBatches_partitions [0, 1, 2, 3, 4] 2 (by decide)).1⟩

/-! ## Properties of the per-batch summarization loop -/

theorem summarizeBatches_count (batches : List (List PreparedEmail)) (gen : GenOracle) (k : Nat) :
    (summarizeBatches batches gen k).2 = k + batches.length := by
  induction batches generalizing k with
  | nil => simp [summarizeBatches]
  | cons batch rest ih =>
    rw [summarizeBatches]
    cases gen k (batchContent batch) with
    | ok t => simp only [List.length_cons]; rw [ih (k + 1)]; omega
    | error e => simp only [List.length_cons]; rw [ih (k + 1)]; omega

theorem summarizeBatches_all_ok (batches : List (List PreparedEmail)) (gen : GenOracle) (k : Nat)
    (hok : ∀ i p, i < batches.length → ∃ t, gen (k + i) p = .ok t) :
    (summarizeBatches batches gen k).1.map (fun b => b.emails) = batches := by
  induction batches generalizing k with
  | nil => simp [summarizeBatches]
  | cons batch rest ih =>
    obtain ⟨t, ht⟩ := hok 0 (batchContent batch) (by simp)
    rw [summarizeBatches]
    simp only [Nat.add_zero] at ht
    rw [ht]
    simp only [List.map_cons, List.cons.injEq, true_and]
    apply ih (k + 1)
    intro i p hi
    have := hok (i + 1) p (by simpa using Nat.succ_lt_succ hi)
    simpa [Nat.add_comm, Nat.add_assoc, Nat.add_left_comm] using this

theorem summarizeBatches_all_fail (batches : List (List PreparedEmail)) (gen : GenOracle) (k : Nat)
    (hfail : ∀ i p, i < batches.length → gen (k + i) p = .error ()) :
    (summarizeBatches batches gen k).1 = [] := by
  induction batches generalizing k with
  | nil => simp [summarizeBatches]
  | cons batch rest ih =>
    have h0 := hfail 0 (batchContent batch) (by simp)
    rw [summarizeBatches]
    simp only [Nat.add_zero] at h0
    rw [h0]
    apply ih (k + 1)
    intro i p hi
    have := hfail (i + 1) p (by simpa using Nat.succ_lt_succ hi)
    simpa [Nat.add_comm, Nat.add_assoc, Nat.add_left_comm] using this

theorem summarizeBatches_one_fail (batches : List (List PreparedEmail)) (gen : GenOracle)
    (k j : Nat) (hj : j < batches.length)
    (hfail : ∀ p, gen (k + j) p = .error ())
    (hok : ∀ i p, i < batches.length → i ≠ j → ∃ t, gen (k + i) p = .ok t) :
    (summarizeBatches batches gen k).1.map (fun b => b.emails) = batches.eraseIdx j := by
  induction batches generalizing k j with
  | nil => simp at hj
  | cons batch rest ih =>
    match j with
    | 0 =>
      have h0 := hfail (batchContent batch)
      rw [summarizeBatches]
      simp only [Nat.add_zero] at h0
      rw [h0]
      simp only [List.eraseIdx_cons_zero]
      apply summarizeBatches_all_ok
      intro i p hi
      have := hok (i + 1) p (by simpa using Nat.succ_lt_succ hi) (by omega)
      simpa [Nat.add_comm, Nat.add_assoc, Nat.add_left_comm] using this
    | j + 1 =>
      obtain ⟨t, ht⟩ := hok 0 (batchContent batch) (by simp) (by omega)
      rw [summarizeBatches]
      simp only [Nat.add_zero] at ht
      rw [ht]
      simp only [List.map_cons, List.eraseIdx_cons_succ, List.cons.injEq, true_and]
      apply ih (k + 1) j (by simpa using hj)
      · intro p
        have := hfail p
        simpa [Nat.add_comm, Nat.add_assoc, Nat.add_left_comm] using this
      · intro i p hi hne
        have := hok (i + 1) p (by simpa using Nat.succ_lt_succ hi) (by omega)
        simpa [Nat.add_comm, Nat.add_assoc, Nat.add_left_comm] using this

/-! ## Category parsing -/

/-- Claim C8: parsing categorization output splits the text into lines, drops the
lines that are blank after trimming, and maps each remaining line to one
category whose name is the trimmed portion before the first colon when the
line contains one (otherwise the whole trimmed line) and whose description
is always the whole trimmed line; in particular the two-line input of the
spec yields exactly the two expected categories (also when blank lines are
interspersed). -/
theorem parseCategories_correct :
    parseCategories "Work: meetings and deadlines\nPersonal: vacation" =
      [{ name := "Work", description := "Work: meetings and deadlines" },
       { name := "Personal", description := "Personal: vacation" }] ∧
    parseCategories "\n  \nWork: meetings and deadlines\n\nPersonal: vacation\n" =
      [{ name := "Work", description := "Work: meetings and deadlines" },
       { name := "Personal", description := "Personal: vacation" }] ∧
    ∀ (s : String), ∀ c ∈ parseCategories s, ∃ line ∈ splitLines s.data,
      0 < (trimChars line).length ∧
      c.description = String.mk (trimChars line) ∧
      c.name = String.mk (if line.contains ':' then trimChars (beforeColon line) else trimChars line) := by
  refine ⟨by decide, by decide, ?_⟩
  intro s c hc
  unfold parseCategories at hc
  obtain ⟨line, hline, hce⟩ := List.mem_map.mp hc
  obtain ⟨hmem, hpred⟩ := List.mem_filter.mp hline
  refine ⟨line, hmem, of_decide_eq_true hpred, ?_, ?_⟩
  · rw [← hce]
  · rw [← hce]

theorem parseCategories_correct_witness :
    ∃ line ∈ splitLines "Work: meetings and deadlines\nPersonal: vacation".data,
      0 < (trimChars line).length ∧
      ({ name := "Work", description := "Work: meetings and deadlines" } : Category).description
        = String.mk (trimChars line) ∧
      ({ name := "Work", description := "Work: meetings and deadlines" } : Category).name
        = String.mk (if line.contains ':' then trimChars (beforeColon line) else trimChars line) :=
  parseCategories_correct.2.2 "Work: meetings and deadlines\nPersonal: vacation"
    { name := "Work", description := "Work: meetings and deadlines" } (by decide)

/-! ## Marking messages as summarized -/

theorem markEmailsAsSummarized_marks (emails : List Email) (ids : List Nat) :
    ∀ e ∈ markEmailsAsSummarized emails ids, e.id ∈ ids → e.isSummarized = true := by
  intro e he hid
  unfold markEmailsAsSummarized at he
  obtain ⟨x, hx, hxe⟩ := List.mem_map.mp he
  by_cases hc : ids.contains x.id
  · rw [if_pos hc] at hxe
    rw [← hxe]
  · rw [if_neg hc] at hxe
    subst hxe
    exact absurd (List.elem_eq_true_of_mem hid) (by simpa using hc)

/-! ## Orchestrator: idempotent re-entry (C1) -/

/-- Claim C1: if an invocation of `createDailySummary` for a date returned a digest
(in particular, if it just persisted one), a second invocation with the same
target date — under any environment at all — returns that same digest, leaves
the store untouched, and makes zero generation-backend calls (no batch
summarization, no categorization, no merge). -/
theorem createDailySummary_idempotent (env1 env2 : Env) (store store1 : Store)
    (date : Nat) (d : Digest) (n : Nat)
    (h : createDailySummary env1 store date = (.ok (some d), store1, n)) :
    createDailySummary env2 store1 date = (.ok (some d), store1, 0) := by
  rw [createDailySummary] at h
  split at h
  case h_1 existing heq =>
    simp only [Prod.mk.injEq, Except.ok.injEq, Option.some.injEq] at h
    obtain ⟨hd, hst, hn⟩ := h
    subst hst
    rw [createDailySummary, heq, hd]
  case h_2 heq =>
    simp only [] at h
    split at h
    · simp at h
    case isFalse hlen =>
      split at h
      case h_1 e heq2 => simp at h
      case h_2 combinedSummary heq2 =>
        split at h
        case h_1 e heq3 => simp at h
        case h_2 savedSummaries heq3 =>
          split at h
          · simp at h
          case isFalse hmark =>
            simp only [Prod.mk.injEq, Except.ok.injEq, Option.some.injEq] at h
            obtain ⟨hd, hst, hn⟩ := h
            subst hst
            rw [saveSummary] at heq3
            split at heq3
            case isTrue => simp at heq3
            case isFalse hany =>
              simp only [Except.ok.injEq] at heq3
              have hdate : d.date = startOfDay date := by rw [← hd]
              rw [createDailySummary]
              have hnone :
                  (List.find? (fun s => s.date == startOfDay date)
                    (match env1.concurrent with
                     | some other => store.summaries ++ [other]
                     | none => store.summaries)) = none := by
                apply List.find?_eq_none.mpr
                intro x hx
                have := List.any_eq_false.mp (Bool.not_eq_true _ ▸ hany) x hx
                simpa using this
              simp only [← heq3, List.find?_append, hnone, Option.none_or,
                List.find?_cons, hd, hdate, beq_self_eq_true]


/-! ## Concrete fixtures used by the witnesses and counterexamples -/

/-- A single stored, not yet summarized message received at the epoch. -/
def wEmail : Email :=
  { id := 1, messageId := "m1", subject := "hello", sender := "a@example.com",
    receivedAt := 0, body := "body", snippet := "", isSummarized := false }

/-- A store holding just `wEmail` and no digest. -/
def wStore : Store := { emails := [wEmail], summaries := [] }

/-- An environment in which every generation call succeeds with the text
`text`, the default batch size applies, and nothing interferes. -/
def wEnv : Env :=
  { gen := fun n p => .ok "text", batchSizeConfig := none, concurrent := none,
    markFails := false, newId := 100 }

/-- The digest the run over `wStore` under `wEnv` persists. -/
def wDigest : Digest :=
  { id := 100, date := 0, content := "text",
    topicCategories := [{ name := "text", description := "text" }],
    emailCount := 1, emailIds := [1] }

/-- The store after that run: the message marked summarized, the digest saved. -/
def wStore1 : Store :=
  { emails := [{ wEmail with isSummarized := true }], summaries := [wDigest] }

unseal chunks List.merge List.mergeSort in
theorem createDailySummary_idempotent_witness :
    createDailySummary wEnv wStore1 0 = (.ok (some wDigest), wStore1, 0) :=
  createDailySummary_idempotent wEnv wEnv wStore wStore1 0 wDigest 3 (by rfl)

/-! ## Merge step -/

theorem generateCombinedSummary_error (batchSummaries : List BatchSummary)
    (allEmails : List PreparedEmail) (gen : GenOracle) (k : Nat)
    (hm : gen (k + 1) (mergePrompt batchSummaries) = .error ()) :
    generateCombinedSummary batchSummaries allEmails gen k = (.error (), k + 2) := by
  simp [generateCombinedSummary, hm]

theorem generateCombinedSummary_ok (batchSummaries : List BatchSummary)
    (allEmails : List PreparedEmail) (gen : GenOracle) (k : Nat) (t : String)
    (hm : gen (k + 1) (mergePrompt batchSummaries) = .ok t) :
    generateCombinedSummary batchSummaries allEmails gen k =
      (.ok { content := t,
             topicCategories :=
               match gen k (categorizePrompt allEmails) with
               | .ok categorization => parseCategories categorization
               | .error _ => [] },
       k + 2) := by
  simp [generateCombinedSummary, hm]

/-- Claim C3: whenever a run reaches generation (no digest exists yet for the target
date and the fetch is non-empty) and the merge-step generation call — the call
right after the categorization call — fails, `createDailySummary` aborts with
the provider error propagated to its caller and the store it returns is
exactly the pre-run store: no digest is persisted and no message flag is
changed. -/
theorem createDailySummary_merge_failure_atomic
    (env : Env) (store : Store) (date : Nat)
    (prepared : List PreparedEmail) (pb : List BatchSummary × Nat)
    (hfind : store.summaries.find? (fun s => s.date == startOfDay date) = none)
    (hne : ¬ (getEmailsForSummary store (startOfDay date) (endOfDay date)).length = 0)
    (hprep : prepared = prepareEmailsForSummary (getEmailsForSummary store (startOfDay date) (endOfDay date)))
    (hpb : pb = processBatches prepared (effectiveBatchSize env.batchSizeConfig) env.gen 0)
    (hmerge : env.gen (pb.2 + 1) (mergePrompt pb.1) = .error ()) :
    createDailySummary env store date = (.error .provider, store, pb.2 + 2) := by
  subst hprep
  subst hpb
  rw [createDailySummary]
  simp only [hfind]
  rw [if_neg hne]
  have hgc := generateCombinedSummary_error _
    (prepareEmailsForSummary (getEmailsForSummary store (startOfDay date) (endOfDay date)))
    env.gen _ hmerge
  simp only [hgc]

/-- An environment in which the third generation call (the merge step for a
one-batch run) fails and every other call succeeds. -/
def wEnvMergeFail : Env :=
  { gen := fun n p => if n = 2 then .error () else .ok "text",
    batchSizeConfig := none, concurrent := none, markFails := false, newId := 100 }

unseal chunks List.merge List.mergeSort in
theorem createDailySummary_merge_failure_atomic_witness :
    createDailySummary wEnvMergeFail wStore 0 = (.error .provider, wStore, 3) :=
  createDailySummary_merge_failure_atomic wEnvMergeFail wStore 0
    (prepareEmailsForSummary (getEmailsForSummary wStore (startOfDay 0) (endOfDay 0)))
    (processBatches (prepareEmailsForSummary (getEmailsForSummary wStore (startOfDay 0) (endOfDay 0)))
      (effectiveBatchSize wEnvMergeFail.batchSizeConfig) wEnvMergeFail.gen 0)
    (by rfl) (by decide) rfl rfl (by rfl)

theorem generateCombinedSummary_ok_exists (batchSummaries : List BatchSummary)
    (allEmails : List PreparedEmail) (gen : GenOracle) (k : Nat) (t : String)
    (hm : gen (k + 1) (mergePrompt batchSummaries) = .ok t) :
    ∃ cats : List Category,
      generateCombinedSummary batchSummaries allEmails gen k =
        (.ok { content := t, topicCategories := cats }, k + 2) :=
  ⟨_, generateCombinedSummary_ok batchSummaries allEmails gen k t hm⟩

/-- Claim C4: in a run over a non-empty fetch of N messages split into K batches in
which the generation call of exactly one batch (the j-th, any j) fails while
every other batch call succeeds and the merge call succeeds, the merge step
receives exactly the K − 1 surviving batches in original order, the run still
completes: it persists a digest carrying `emailCount = N` and the identifiers
of all N fetched messages, and every fetched message is marked summarized. -/
theorem createDailySummary_partial_batch_failure
    (env : Env) (store : Store) (date : Nat)
    (emails : List Email) (batches : List (List PreparedEmail)) (j : Nat) (t : String)
    (hfind : store.summaries.find? (fun s => s.date == startOfDay date) = none)
    (hemails : emails = getEmailsForSummary store (startOfDay date) (endOfDay date))
    (hne : emails ≠ [])
    (hbatches : batches = chunks (prepareEmailsForSummary emails) (effectiveBatchSize env.batchSizeConfig))
    (hj : j < batches.length)
    (hfail : ∀ p, env.gen j p = .error ())
    (hok : ∀ i p, i < batches.length → i ≠ j → ∃ s, env.gen i p = .ok s)
    (hmerge : env.gen (batches.length + 1)
      (mergePrompt (summarizeBatches batches env.gen 0).1) = .ok t)
    (hconc : env.concurrent = none)
    (hmark : env.markFails = false) :
    ∃ d : Digest,
      createDailySummary env store date =
        (.ok (some d),
         { emails := markEmailsAsSummarized store.emails (emails.map (fun e => e.id)),
           summaries := store.summaries ++ [d] },
         batches.length + 2) ∧
      d.emailCount = emails.length ∧
      d.emailIds = emails.map (fun e => e.id) ∧
      d.content = t ∧
      (summarizeBatches batches env.gen 0).1.map (fun b => b.emails) = batches.eraseIdx j ∧
      (summarizeBatches batches env.gen 0).1.length = batches.length - 1 ∧
      (∀ e ∈ markEmailsAsSummarized store.emails (emails.map (fun e => e.id)),
        e.id ∈ emails.map (fun e => e.id) → e.isSummarized = true) := by
  have hone := summarizeBatches_one_fail batches env.gen 0 j hj
    (by intro p; simpa using hfail p)
    (by intro i p hi hne2; simpa using hok i p hi hne2)
  have hcnt := summarizeBatches_count batches env.gen 0
  have hm2 : env.gen ((summarizeBatches batches env.gen 0).2 + 1)
      (mergePrompt (summarizeBatches batches env.gen 0).1) = .ok t := by
    rw [hcnt, Nat.zero_add]
    exact hmerge
  obtain ⟨cats, hgc⟩ := generateCombinedSummary_ok_exists (summarizeBatches batches env.gen 0).1
    (prepareEmailsForSummary emails) env.gen (summarizeBatches batches env.gen 0).2 t hm2
  rw [hcnt, Nat.zero_add] at hgc
  have hany : (store.summaries.any (fun s => s.date == startOfDay date)) = false := by
    rw [List.any_eq_false]
    intro x hx
    simpa using List.find?_eq_none.mp hfind x hx
  have hlen : ¬ (getEmailsForSummary store (startOfDay date) (endOfDay date)).length = 0 := by
    rw [← hemails]
    simpa using hne
  have hlength : (summarizeBatches batches env.gen 0).1.length = batches.length - 1 := by
    have h1 : (summarizeBatches batches env.gen 0).1.length = (batches.eraseIdx j).length := by
      rw [← hone, List.length_map]
    rw [h1, List.length_eraseIdx_of_lt hj]
  refine ⟨{ id := env.newId, date := startOfDay date, content := t,
            topicCategories := cats, emailCount := emails.length,
            emailIds := emails.map (fun e => e.id) },
          ?_, rfl, rfl, rfl, hone, hlength, markEmailsAsSummarized_marks _ _⟩
  rw [createDailySummary]
  simp only [hfind]
  rw [if_neg hlen]
  simp only [processBatches, ← hemails, ← hbatches, hgc, hconc, saveSummary, hany,
    Bool.false_eq_true, if_false, hmark, hcnt, Nat.zero_add]

/-- Three stored unsummarized messages (ids 1, 2, 3). -/
def w4Emails : List Email :=
  [{ id := 1, messageId := "m1", subject := "a", sender := "s", receivedAt := 0,
     body := "x", snippet := "", isSummarized := false },
   { id := 2, messageId := "m2", subject := "b", sender := "s", receivedAt := 1,
     body := "x", snippet := "", isSummarized := false },
   { id := 3, messageId := "m3", subject := "c", sender := "s", receivedAt := 2,
     body := "x", snippet := "", isSummarized := false }]

/-- A store holding the three messages and no digest. -/
def w4Store : Store := { emails := w4Emails, summaries := [] }

/-- Batch size 2 (so two batches), the first generation call (batch 0) fails,
every later call succeeds. -/
def w4Env : Env :=
  { gen := fun n p => if n = 0 then .error () else .ok "text",
    batchSizeConfig := some 2, concurrent := none, markFails := false, newId := 100 }

unseal chunks List.merge List.mergeSort in
theorem createDailySummary_partial_batch_failure_witness :
    ∃ d : Digest,
      createDailySummary w4Env w4Store 0 =
        (.ok (some d),
         { emails := markEmailsAsSummarized w4Store.emails (w4Emails.map (fun e => e.id)),
           summaries := w4Store.summaries ++ [d] },
         (chunks (prepareEmailsForSummary w4Emails) (effectiveBatchSize w4Env.batchSizeConfig)).length + 2) ∧
      d.emailCount = w4Emails.length ∧
      d.emailIds = w4Emails.map (fun e => e.id) ∧
      d.content = "text" ∧
      (summarizeBatches (chunks (prepareEmailsForSummary w4Emails)
          (effectiveBatchSize w4Env.batchSizeConfig)) w4Env.gen 0).1.map (fun b => b.emails) =
        (chunks (prepareEmailsForSummary w4Emails) (effectiveBatchSize w4Env.batchSizeConfig)).eraseIdx 0 ∧
      (summarizeBatches (chunks (prepareEmailsForSummary w4Emails)
          (effectiveBatchSize w4Env.batchSizeConfig)) w4Env.gen 0).1.length =
        (chunks (prepareEmailsForSummary w4Emails) (effectiveBatchSize w4Env.batchSizeConfig)).length - 1 ∧
      (∀ e ∈ markEmailsAsSummarized w4Store.emails (w4Emails.map (fun e => e.id)),
        e.id ∈ w4Emails.map (fun e => e.id) → e.isSummarized = true) :=
  createDailySummary_partial_batch_failure w4Env w4Store 0 w4Emails
    (chunks (prepareEmailsForSummary w4Emails) (effectiveBatchSize w4Env.batchSizeConfig))
    0 "text" rfl (by rfl) (by decide) rfl (by decide)
    (fun p => rfl)
    (by
      intro i p hi hne2
      refine ⟨"text", ?_⟩
      match i with
      | 0 => exact absurd rfl hne2
      | Nat.succ m => rfl)
    (by rfl) rfl rfl

/-! ## C5: behaviour when every batch fails -/

/-- Every batch call and the categorization call fail; only the merge call
(index 2 for a one-batch run) succeeds. -/
def w5Env : Env :=
  { gen := fun n p => if n = 2 then .ok "merged" else .error (),
    batchSizeConfig := none, concurrent := none, markFails := false, newId := 100 }

/-- The digest the all-batches-fail run persists: its content is generated by
the merge call from an empty batch-summary collection. -/
def w5Digest : Digest :=
  { id := 100, date := 0, content := "merged", topicCategories := [],
    emailCount := 1, emailIds := [1] }

unseal chunks List.merge List.mergeSort in
theorem createDailySummary_all_batches_fail_counterexample :
    (processBatches (prepareEmailsForSummary [wEmail])
      (effectiveBatchSize w5Env.batchSizeConfig) w5Env.gen 0).1 = [] ∧
    createDailySummary w5Env wStore 0 =
      (.ok (some w5Digest),
       { emails := [{ wEmail with isSummarized := true }], summaries := [w5Digest] },
       3) :=
  ⟨by rfl, by rfl⟩

/-- Claim C5 (amended): if the generation call of every batch fails, the
batch-summarization output list is indeed empty, but the orchestrator does
not short-circuit as it does in the no-emails-found case: it still runs the
categorization and merge calls over the empty summary collection and, when
the merge call succeeds, persists a digest (whose content the merge call
generated from an empty combined text) and marks all fetched messages
summarized. -/
theorem createDailySummary_all_batches_fail
    (env : Env) (store : Store) (date : Nat)
    (emails : List Email) (batches : List (List PreparedEmail)) (t : String)
    (hfind : store.summaries.find? (fun s => s.date == startOfDay date) = none)
    (hemails : emails = getEmailsForSummary store (startOfDay date) (endOfDay date))
    (hne : emails ≠ [])
    (hbatches : batches = chunks (prepareEmailsForSummary emails) (effectiveBatchSize env.batchSizeConfig))
    (hfail : ∀ i p, i < batches.length → env.gen i p = .error ())
    (hmerge : env.gen (batches.length + 1) (mergePrompt []) = .ok t)
    (hconc : env.concurrent = none)
    (hmark : env.markFails = false) :
    (summarizeBatches batches env.gen 0).1 = [] ∧
    ∃ d : Digest,
      createDailySummary env store date =
        (.ok (some d),
         { emails := markEmailsAsSummarized store.emails (emails.map (fun e => e.id)),
           summaries := store.summaries ++ [d] },
         batches.length + 2) ∧
      d.content = t ∧
      d.emailCount = emails.length ∧
      d.emailIds = emails.map (fun e => e.id) := by
  have hempty := summarizeBatches_all_fail batches env.gen 0
    (by intro i p hi; simpa using hfail i p hi)
  have hcnt := summarizeBatches_count batches env.gen 0
  refine ⟨hempty, ?_⟩
  have hm2 : env.gen ((summarizeBatches batches env.gen 0).2 + 1)
      (mergePrompt (summarizeBatches batches env.gen 0).1) = .ok t := by
    rw [hcnt, Nat.zero_add, hempty]
    exact hmerge
  obtain ⟨cats, hgc⟩ := generateCombinedSummary_ok_exists (summarizeBatches batches env.gen 0).1
    (prepareEmailsForSummary emails) env.gen (summarizeBatches batches env.gen 0).2 t hm2
  rw [hcnt, Nat.zero_add] at hgc
  have hany : (store.summaries.any (fun s => s.date == startOfDay date)) = false := by
    rw [List.any_eq_false]
    intro x hx
    simpa using List.find?_eq_none.mp hfind x hx
  have hlen : ¬ (getEmailsForSummary store (startOfDay date) (endOfDay date)).length = 0 := by
    rw [← hemails]
    simpa using hne
  refine ⟨{ id := env.newId, date := startOfDay date, content := t,
            topicCategories := cats, emailCount := emails.length,
            emailIds := emails.map (fun e => e.id) },
          ?_, rfl, rfl, rfl⟩
  rw [createDailySummary]
  simp only [hfind]
  rw [if_neg hlen]
  simp only [processBatches, ← hemails, ← hbatches, hgc, hconc, saveSummary, hany,
    Bool.false_eq_true, if_false, hmark, hcnt, Nat.zero_add]

unseal chunks List.merge List.mergeSort in
theorem createDailySummary_all_batches_fail_witness :
    (summarizeBatches (chunks (prepareEmailsForSummary [wEmail])
        (effectiveBatchSize w5Env.batchSizeConfig)) w5Env.gen 0).1 = [] ∧
    ∃ d : Digest,
      createDailySummary w5Env wStore 0 =
        (.ok (some d),
         { emails := markEmailsAsSummarized wStore.emails ([wEmail].map (fun e => e.id)),
           summaries := wStore.summaries ++ [d] },
         (chunks (prepareEmailsForSummary [wEmail]) (effectiveBatchSize w5Env.batchSizeConfig)).length + 2) ∧
      d.content = "merged" ∧
      d.emailCount = [wEmail].length ∧
      d.emailIds = [wEmail].map (fun e => e.id) :=
  createDailySummary_all_batches_fail w5Env wStore 0 [wEmail]
    (chunks (prepareEmailsForSummary [wEmail]) (effectiveBatchSize w5Env.batchSizeConfig))
    "merged" rfl (by rfl) (by decide) rfl
    (by
      intro i p hi
      match i with
      | 0 => rfl
      | 1 => rfl
      | Nat.succ (Nat.succ m) =>
        exact absurd hi (by
          rw [show (chunks (prepareEmailsForSummary [wEmail])
            (effectiveBatchSize w5Env.batchSizeConfig)).length = 1 from rfl]
          omega))
    (by rfl) rfl rfl

/-! ## C6: duplicate-date save failure -/

/-- A digest for the same day committed by a concurrent run between the
find-by-date check and the save. -/
def w6Other : Digest :=
  { id := 55, date := 0, content := "other", topicCategories := [],
    emailCount := 0, emailIds := [] }

/-- All generation calls succeed as needed (batch fails, merge ok) and a
concurrent digest for the same date is committed before the save. -/
def w6Env : Env :=
  { gen := fun n p => if n = 2 then .ok "merged" else .error (),
    batchSizeConfig := none, concurrent := some w6Other, markFails := false, newId := 100 }

unseal chunks List.merge List.mergeSort in
theorem createDailySummary_duplicate_date_counterexample :
    createDailySummary w6Env wStore 0 = (.error .duplicateDate, wStore, 3) ∧
    (createDailySummary w6Env wStore 0).1 ≠ .ok (some w6Other) :=
  ⟨by rfl, by intro hcon; rw [show (createDailySummary w6Env wStore 0).1
      = .error .duplicateDate from rfl] at hcon; exact Except.noConfusion hcon⟩

/-- Claim C6 (amended): if the digest save is rejected by the duplicate-date
uniqueness violation (a concurrent run persisted a digest for the same date
after the find-by-date check), `createDailySummary` does not resolve the
conflict: the duplicate-key failure is logged and propagated to the caller as
an error, the run's own digest is not persisted, and the pre-existing digest
is not re-fetched or returned. -/
theorem createDailySummary_duplicate_date_propagates
    (env : Env) (store : Store) (date : Nat)
    (other : Digest) (pb : List BatchSummary × Nat) (t : String)
    (hfind : store.summaries.find? (fun s => s.date == startOfDay date) = none)
    (hne : ¬ (getEmailsForSummary store (startOfDay date) (endOfDay date)).length = 0)
    (hpb : pb = processBatches (prepareEmailsForSummary (getEmailsForSummary store (startOfDay date) (endOfDay date)))
      (effectiveBatchSize env.batchSizeConfig) env.gen 0)
    (hmerge : env.gen (pb.2 + 1) (mergePrompt pb.1) = .ok t)
    (hconc : env.concurrent = some other)
    (hdate : other.date = startOfDay date) :
    createDailySummary env store date = (.error .duplicateDate, store, pb.2 + 2) := by
  subst hpb
  obtain ⟨cats, hgc⟩ := generateCombinedSummary_ok_exists _
    (prepareEmailsForSummary (getEmailsForSummary store (startOfDay date) (endOfDay date)))
    env.gen _ t hmerge
  have hany : ((store.summaries ++ [other]).any (fun s => s.date == startOfDay date)) = true := by
    rw [List.any_append]
    apply Bool.or_eq_true_iff.mpr
    right
    simp [hdate]
  rw [createDailySummary]
  simp only [hfind]
  rw [if_neg hne]
  simp only [processBatches] at hgc ⊢
  simp only [hgc, hconc, saveSummary, hany, if_true]

unseal chunks List.merge List.mergeSort in
theorem createDailySummary_duplicate_date_witness :
    createDailySummary w6Env wStore 0 =
      (.error .duplicateDate, wStore,
       (processBatches (prepareEmailsForSummary (getEmailsForSummary wStore (startOfDay 0) (endOfDay 0)))
         (effectiveBatchSize w6Env.batchSizeConfig) w6Env.gen 0).2 + 2) :=
  createDailySummary_duplicate_date_propagates w6Env wStore 0 w6Other
    (processBatches (prepareEmailsForSummary (getEmailsForSummary wStore (startOfDay 0) (endOfDay 0)))
      (effectiveBatchSize w6Env.batchSizeConfig) w6Env.gen 0)
    "merged" rfl (by decide) rfl (by rfl) rfl rfl

/-! ## C7: failure while marking messages as summarized -/

/-- Same environment as `wEnv` except that the `markEmailsAsSummarized` call
rejects. -/
def w7Env : Env :=
  { gen := fun n p => .ok "text", batchSizeConfig := none, concurrent := none,
    markFails := true, newId := 100 }

unseal chunks List.merge List.mergeSort in
theorem createDailySummary_mark_failure_counterexample :
    createDailySummary w7Env wStore 0 =
      (.error .markFailed, { emails := [wEmail], summaries := [wDigest] }, 3) :=
  by rfl

/-- Claim C7 (amended): if marking the fetched messages as summarized fails after
the digest has been successfully persisted, the persisted digest is not
rolled back — it is still in the returned store, and the stored messages are
left untouched — but the failure is not merely logged: it propagates to the
caller of `createDailySummary` as an error. -/
theorem createDailySummary_mark_failure
    (env : Env) (store : Store) (date : Nat)
    (pb : List BatchSummary × Nat) (t : String)
    (hfind : store.summaries.find? (fun s => s.date == startOfDay date) = none)
    (hne : ¬ (getEmailsForSummary store (startOfDay date) (endOfDay date)).length = 0)
    (hpb : pb = processBatches (prepareEmailsForSummary (getEmailsForSummary store (startOfDay date) (endOfDay date)))
      (effectiveBatchSize env.batchSizeConfig) env.gen 0)
    (hmerge : env.gen (pb.2 + 1) (mergePrompt pb.1) = .ok t)
    (hconc : env.concurrent = none)
    (hmark : env.markFails = true) :
    ∃ d : Digest,
      createDailySummary env store date =
        (.error .markFailed,
         { emails := store.emails, summaries := store.summaries ++ [d] },
         pb.2 + 2) ∧
      d.date = startOfDay date ∧
      d.content = t := by
  subst hpb
  obtain ⟨cats, hgc⟩ := generateCombinedSummary_ok_exists _
    (prepareEmailsForSummary (getEmailsForSummary store (startOfDay date) (endOfDay date)))
    env.gen _ t hmerge
  have hany : (store.summaries.any (fun s => s.date == startOfDay date)) = false := by
    rw [List.any_eq_false]
    intro x hx
    simpa using List.find?_eq_none.mp hfind x hx
  refine ⟨{ id := env.newId, date := startOfDay date, content := t,
            topicCategories := cats,
            emailCount := (getEmailsForSummary store (startOfDay date) (endOfDay date)).length,
            emailIds := (getEmailsForSummary store (startOfDay date) (endOfDay date)).map (fun e => e.id) },
          ?_, rfl, rfl⟩
  rw [createDailySummary]
  simp only [hfind]
  rw [if_neg hne]
  simp only [processBatches] at hgc ⊢
  simp only [hgc, hconc, saveSummary, hany, Bool.false_eq_true, if_false, hmark, if_true]

unseal chunks List.merge List.mergeSort in
theorem createDailySummary_mark_failure_witness :
    ∃ d : Digest,
      createDailySummary w7Env wStore 0 =
        (.error .markFailed,
         { emails := wStore.emails, summaries := wStore.summaries ++ [d] },
         (processBatches (prepareEmailsForSummary (getEmailsForSummary wStore (startOfDay 0) (endOfDay 0)))
           (effectiveBatchSize w7Env.batchSizeConfig) w7Env.gen 0).2 + 2) ∧
      d.date = startOfDay 0 ∧
      d.content = "text" :=
  createDailySummary_mark_failure w7Env wStore 0
    (processBatches (prepareEmailsForSummary (getEmailsForSummary wStore (startOfDay 0) (endOfDay 0)))
      (effectiveBatchSize w7Env.batchSizeConfig) w7Env.gen 0)
    "text" rfl (by decide) rfl (by rfl) rfl rfl

/-! ## Distribution -/

theorem sendEmail_count (env : MailEnv) (k : Nat) (toAddr subject html : String) :
    (sendEmail env k toAddr subject html).2 = k + 1 := by
  rw [sendEmail]
  cases env.provider k with
  | ok t => rfl
  | error e =>
    by_cases hp : env.production = true
    · simp [hp]
    · simp [hp]

theorem find?_update_self (l : List Digest) (summaryId : Nat) (u : Digest)
    (hu : (u.id == summaryId) = true)
    (hex : (l.find? (fun s => s.id == summaryId)).isSome = true) :
    (l.map (fun s => if s.id == summaryId then u else s)).find? (fun s => s.id == summaryId)
      = some u := by
  induction l with
  | nil => simp at hex
  | cons a t ih =>
    by_cases ha : (a.id == summaryId) = true
    · simp only [List.map_cons, if_pos ha]
      simp [List.find?_cons, hu]
    · have ha2 : (a.id == summaryId) = false := by simpa using ha
      simp only [List.map_cons, ha2, Bool.false_eq_true, if_false, List.find?_cons]
      apply ih
      simp only [List.find?_cons, ha2] at hex
      exact hex

/-- The digest awaiting distribution in the distribution fixtures. -/
def w9Digest : Digest :=
  { id := 7, date := 0, content := "c", topicCategories := [],
    emailCount := 1, emailIds := [1] }

/-- A store holding only `w9Digest`. -/
def w9Store : Store := { emails := [], summaries := [w9Digest] }

/-- A non-production environment whose mail provider rejects every send. -/
def w9Env : MailEnv :=
  { production := false, provider := fun k => .error (),
    recipient := some "r@example.com", now := 42 }

/-- `w9Digest` with the distribution fields set as the failed-delivery
non-production run sets them. -/
def w9Updated : Digest :=
  { w9Digest with
    isDistributed := true
    distributedAt := some 42
    distributionRecipients := ["r@example.com"] }

theorem distributeSummary_delivery_failure_counterexample :
    distributeSummary w9Env w9Store 7 0 =
      (.ok w9Updated, { emails := [], summaries := [w9Updated] }, 1) ∧
    w9Updated.isDistributed = true ∧
    w9Env.provider 0 = .error () :=
  ⟨by rfl, by rfl, by rfl⟩

/-- Claim C9 (amended): for a persisted, not-yet-distributed digest, when the
underlying mail-provider send attempt fails *and the process runs in
production mode* (so the delivery wrapper rethrows instead of substituting a
mock success), the failure propagates to the caller of `distributeSummary`
and the digest's distribution fields remain unchanged; outside production the
wrapper swallows the failure, so the digest is marked distributed despite the
failed delivery. -/
theorem distributeSummary_delivery_failure_production
    (env : MailEnv) (store : Store) (summaryId k : Nat) (s : Digest) (r : String)
    (hfind : store.summaries.find? (fun d => d.id == summaryId) = some s)
    (hdist : s.isDistributed = false)
    (hrec : env.recipient = some r)
    (hprod : env.production = true)
    (hprov : env.provider k = .error ()) :
    distributeSummary env store summaryId k = (.error .delivery, store, k + 1) := by
  rw [distributeSummary]
  simp only [hfind, hdist, Bool.false_eq_true, if_false, hrec, sendEmail, hprov, hprod,
    if_true]

/-- A production environment whose mail provider rejects every send. -/
def w9pEnv : MailEnv :=
  { production := true, provider := fun k => .error (),
    recipient := some "r@example.com", now := 42 }

theorem distributeSummary_delivery_failure_production_witness :
    distributeSummary w9pEnv w9Store 7 0 = (.error .delivery, w9Store, 1) :=
  distributeSummary_delivery_failure_production w9pEnv w9Store 7 0 w9Digest
    "r@example.com" rfl rfl rfl rfl rfl

/-- A production environment whose provider rejects the first send attempt
and accepts every later one. -/
def w10Env : MailEnv :=
  { production := true, provider := fun k => if k = 0 then .error () else .ok "id2",
    recipient := some "r@example.com", now := 42 }

theorem distributeSummary_twice_counterexample :
    distributeSummary w10Env w9Store 7 0 = (.error .delivery, w9Store, 1) ∧
    (distributeSummary w10Env w9Store 7 1).2.2 = 2 :=
  ⟨by rfl, by rfl⟩

/-- Claim C10 (amended): if a `distributeSummary` call on a digest identifier
returns successfully, it invoked the mail-delivery collaborator at most once,
and a second call on the same identifier is a pure no-op: it returns the same
digest unchanged, mutates nothing, and performs no further mail-delivery
invocation (in particular, an already-distributed digest is returned
unchanged without sending mail).  When a call fails before the distributed
flag is persisted, however, a later call invokes delivery again (see the
counterexample). -/
theorem distributeSummary_idempotent_on_success
    (env1 env2 : MailEnv) (store store1 : Store) (summaryId k1 : Nat) (d : Digest)
    (h : distributeSummary env1 store summaryId 0 = (.ok d, store1, k1)) :
    distributeSummary env2 store1 summaryId k1 = (.ok d, store1, k1) ∧ k1 ≤ 1 := by
  rw [distributeSummary] at h
  split at h
  case h_1 heq => simp at h
  case h_2 s heq =>
    have hpred := List.find?_some heq
    split at h
    case isTrue hd =>
      simp only [Prod.mk.injEq, Except.ok.injEq] at h
      obtain ⟨h1, h2, h3⟩ := h
      subst h1
      subst h2
      subst h3
      refine ⟨?_, by omega⟩
      rw [distributeSummary]
      simp only [heq]
      rw [if_pos hd]
    case isFalse hd =>
      split at h
      case h_1 hrec => simp at h
      case h_2 r hrec =>
        simp only [] at h
        split at h
        case h_1 e heq2 => simp at h
        case h_2 res heq2 =>
          simp only [Prod.mk.injEq, Except.ok.injEq] at h
          obtain ⟨h1, h2, h3⟩ := h
          have hk : k1 = 1 := by
            rw [← h3, sendEmail_count]
          subst hk
          refine ⟨?_, le_refl 1⟩
          rw [distributeSummary]
          have hfind2 :
              (store.summaries.map (fun s2 => if s2.id == summaryId then
                  { s with
                    isDistributed := true
                    distributedAt := some env1.now
                    distributionRecipients := [r] } else s2)).find?
                (fun s2 => s2.id == summaryId) =
              some { s with
                     isDistributed := true
                     distributedAt := some env1.now
                     distributionRecipients := [r] } := by
            apply find?_update_self
            · exact hpred
            · rw [heq]
              rfl
          rw [← h2]
          simp only [hfind2, ← h1, if_true]

/-- A production environment whose mail provider accepts every send. -/
def w10okEnv : MailEnv :=
  { production := true, provider := fun k => .ok "id1",
    recipient := some "r@example.com", now := 42 }

theorem distributeSummary_idempotent_on_success_witness :
    distributeSummary w10okEnv { emails := [], summaries := [w9Updated] } 7 1 =
      (.ok w9Updated, { emails := [], summaries := [w9Updated] }, 1) ∧ (1 : Nat) ≤ 1 :=
  distributeSummary_idempotent_on_success w10okEnv w10okEnv w9Store
    { emails := [], summaries := [w9Updated] } 7 1 w9Updated (by rfl)

end News
